import Mathlib

/-!
Verification development for the vault-registry-proxy repository.

The Go sources are shallowly embedded: pure Go string manipulation is
translated to Lean functions over `String`/`List Char`, the credential
cache becomes explicit state passing over an association list indexed by
an abstract clock (nanosecond timestamps become `Nat`), and fallible Go
code returns `Except`/`Option`.  Names follow the Go sources where Lean
allows it.
-/

/-! ## Go standard-library string primitives (modelled from Go's `strings`) -/

/-- Whether `p` is a leading run of `cs` (Go `strings.HasPrefix`, over runes). -/
def leadsWith : List Char → List Char → Bool
  | [], _ => true
  | _ :: _, [] => false
  | p :: ps, c :: cs => p == c && leadsWith ps cs

/-- Go `strings.HasPrefix` on strings. -/
def goStartsWith (s pre : String) : Bool :=
  leadsWith pre.data s.data

/-- Go `strings.TrimPrefix`: drop the leading occurrence of `pre`, if present. -/
def goTrimLead (s pre : String) : String :=
  if goStartsWith s pre then String.mk (s.data.drop pre.data.length) else s

/-- Go `strings.TrimSuffix`: drop the trailing occurrence of `suf`, if present. -/
def goTrimTrail (s suf : String) : String :=
  if goStartsWith (String.mk s.data.reverse) (String.mk suf.data.reverse) then
    String.mk (s.data.take (s.data.length - suf.data.length))
  else s

/-- Go `strings.Contains(s, string c)` for a one-rune needle. -/
def goContainsChar (s : String) (c : Char) : Bool :=
  s.data.contains c

/-- Split `cs` at the first occurrence of `sep`: the part before it and the
part after it, or `none` when `sep` does not occur. -/
def splitFirst : List Char → Char → Option (List Char × List Char)
  | [], _ => none
  | c :: cs, sep =>
    if c == sep then some ([], cs)
    else match splitFirst cs sep with
      | none => none
      | some (pre, post) => some (c :: pre, post)

/-- Go `strings.SplitN(s, string sep, n)` for `n ≥ 1` and a one-rune
separator: at most `n` parts, the last part being the unsplit remainder. -/
def goSplitNChars : List Char → Char → Nat → List (List Char)
  | _, _, 0 => []
  | cs, _, 1 => [cs]
  | cs, sep, n + 2 =>
    match splitFirst cs sep with
    | none => [cs]
    | some (pre, post) => pre :: goSplitNChars post sep (n + 1)

/-- Go `strings.SplitN` on strings. -/
def goSplitN (s : String) (sep : Char) (n : Nat) : List String :=
  (goSplitNChars s.data sep n).map String.mk

/-- Fuel-driven worker for the unbounded split; each recursive call strictly
shrinks the input, so fuel equal to the input length always suffices. -/
def goSplitCharsAux : Nat → List Char → Char → List (List Char)
  | 0, cs, _ => [cs]
  | fuel + 1, cs, sep =>
    match splitFirst cs sep with
    | none => [cs]
    | some (pre, post) => pre :: goSplitCharsAux fuel post sep

/-- Go `strings.Split(s, string sep)`: unbounded split on a one-rune
separator. -/
def goSplitChars (cs : List Char) (sep : Char) : List (List Char) :=
  goSplitCharsAux cs.length cs sep

/-- Go `strings.Split` on strings. -/
def goSplit (s : String) (sep : Char) : List String :=
  (goSplitChars s.data sep).map String.mk

/-- Go `unicode.IsSpace` restricted to Latin-1 (above U+00FF Go consults the
Unicode White_Space table, which no string in this development reaches). -/
def goIsSpace (c : Char) : Bool :=
  c == ' ' || c == '\t' || c == '\n' || c == (Char.ofNat 11) ||
  c == (Char.ofNat 12) || c == '\r' || c == (Char.ofNat 0x85) ||
  c == (Char.ofNat 0xA0)

/-- Go `strings.TrimSpace`: strip leading and trailing white space. -/
def goTrimSpace (s : String) : String :=
  String.mk (((s.data.dropWhile goIsSpace).reverse.dropWhile goIsSpace).reverse)

/-- Go `strings.Join(parts, "/")` and friends. -/
def goJoin (parts : List String) (sep : String) : String :=
  String.intercalate sep parts

/-! ## pkg/auth/config.go -/

/-- The two sentinel errors of `pkg/auth/config.go`
(`ErrInvalidUsernameFormat`, `ErrUnsupportedRegistryType`). -/
inductive ParseError where
  | invalidUsernameFormat
  | unsupportedRegistryType
  deriving DecidableEq, Repr

/-- `RegistryConfig` from `pkg/auth/config.go`. -/
structure RegistryConfig where
  type : String
  vaultPath : String
  registryURL : String
  deriving DecidableEq, Repr

/-- `isValidRegistryType` from `pkg/auth/config.go`: membership in the
supported-type map `docker/ecr/gcr`. -/
def isValidRegistryType (registryType : String) : Bool :=
  registryType == "docker" || registryType == "ecr" || registryType == "gcr"

/-- `ParseUsername` from `pkg/auth/config.go`: split on at most three
semicolon-delimited parts, trim each, require all three non-empty, then
validate the registry type. -/
def ParseUsername (username : String) : Except ParseError RegistryConfig :=
  match goSplitN username ';' 3 with
  | [p0, p1, p2] =>
    let registryType := goTrimSpace p0
    let vaultPath := goTrimSpace p1
    let registryURL := goTrimSpace p2
    if registryType = "" ∨ vaultPath = "" ∨ registryURL = "" then
      .error .invalidUsernameFormat
    else if ¬ isValidRegistryType registryType then
      .error .unsupportedRegistryType
    else
      .ok ⟨registryType, vaultPath, registryURL⟩
  | _ => .error .invalidUsernameFormat

/-! ## pkg/auth/middleware.go: scope derivation and challenge -/

/-- `getActionFromEndpoint` from `pkg/auth/middleware.go`: switch over the
endpoint and HTTP method. -/
def getActionFromEndpoint (endpoint method : String) : String :=
  if endpoint == "tags" || goStartsWith endpoint "tags/" then "pull"
  else if goStartsWith endpoint "manifests/" then
    if method == "GET" then "pull"
    else if method == "PUT" then "push"
    else if method == "DELETE" then "delete"
    else "pull"
  else if goStartsWith endpoint "blobs/" then
    if method == "GET" then "pull"
    else if method == "DELETE" then "delete"
    else "pull"
  else if endpoint == "uploads" || goStartsWith endpoint "uploads/" then "push"
  else "pull"

/-- `extractScope` from `pkg/auth/middleware.go`: under `/v2/`, `_catalog`
maps to the catalog scope; a path containing `/` is split on `/`, the
repository name is every part but the last rejoined with `/`, and the last
part is the endpoint fed to `getActionFromEndpoint`; otherwise the scope is
empty. -/
def extractScope (path method : String) : String :=
  if goStartsWith path "/v2/" then
    let p := goTrimLead path "/v2/"
    if p == "_catalog" then "registry:catalog:*"
    else if goContainsChar p '/' then
      let parts := goSplit p '/'
      if parts.length ≥ 2 then
        let repoName := goJoin parts.dropLast "/"
        let endpoint := parts.getLastD ""
        "repository:" ++ repoName ++ ":" ++ getActionFromEndpoint endpoint method
      else ""
    else ""
  else ""

/-- The `WWW-Authenticate` value built by `challengeAuth` in
`pkg/auth/middleware.go`: realm and service always, scope appended only when
non-empty. -/
def challengeHeaderValue (realm service path method : String) : String :=
  let scope := extractScope path method
  let base := "Bearer realm=\"" ++ realm ++ "\",service=\"" ++ service ++ "\""
  if scope ≠ "" then base ++ ",scope=\"" ++ scope ++ "\"" else base

/-! ## HTTP responses the proxy generates itself -/

/-- An HTTP response as far as this development observes it: status code,
response headers, body bytes. -/
structure HTTPResponse where
  status : Nat
  headers : List (String × String)
  body : String
  deriving DecidableEq, Repr

/-- Lower-case hex digit (used by JSON `\u` escapes and by hash rendering). -/
def hexDigit (n : Nat) : Char :=
  "0123456789abcdef".data.getD n '0'

/-- Four lower-case hex digits of `n % 65536`, most significant first. -/
def toHexNat4 (n : Nat) : List Char :=
  [hexDigit ((n / 4096) % 16), hexDigit ((n / 256) % 16),
   hexDigit ((n / 16) % 16), hexDigit (n % 16)]

/-- Modelled from Go's `encoding/json` string escaping with the encoder's
default HTML escaping: quote, backslash, newline, carriage return and tab,
other control characters, the HTML characters and U+2028/U+2029. -/
def jsonEscapeChar (c : Char) : List Char :=
  if c == '"' then ['\\', '"']
  else if c == '\\' then ['\\', '\\']
  else if c == '\n' then ['\\', 'n']
  else if c == '\r' then ['\\', 'r']
  else if c == '\t' then ['\\', 't']
  else if c == '<' || c == '>' || c == '&' || c.toNat < 32 ||
      c.toNat == 0x2028 || c.toNat == 0x2029 then
    '\\' :: 'u' :: toHexNat4 c.toNat
  else [c]

/-- JSON string escaping over a whole string. -/
def jsonEscape (s : String) : String :=
  String.mk (s.data.flatMap jsonEscapeChar)

/-- The JSON error body both `writeErrorResponse` functions produce: the
`errors` array with one `code`/`message` object, followed by the newline
Go's `json.Encoder` appends.  `encoding/json` writes map keys sorted and
struct fields in order, so `code` precedes `message` in both. -/
def renderErrorBody (code message : String) : String :=
  "\x7b\"errors\":[\x7b\"code\":\"" ++ jsonEscape code ++
  "\",\"message\":\"" ++ jsonEscape message ++ "\"\x7d]\x7d" ++ "\n"

/-- `writeErrorResponse` from `pkg/auth/middleware.go` (the registry
package's copy is identical for the fields it sets): JSON content type,
explicit status code, the standard error body. -/
def writeErrorResponse (code message : String) (statusCode : Nat) : HTTPResponse :=
  { status := statusCode,
    headers := [("Content-Type", "application/json")],
    body := renderErrorBody code message }

/-- `challengeAuth` from `pkg/auth/middleware.go`: sets `WWW-Authenticate`
and `Docker-Distribution-API-Version` and delegates to
`writeErrorResponse "UNAUTHORIZED" "authentication required" 401`. -/
def challengeAuth (realm service path method : String) : HTTPResponse :=
  let base := writeErrorResponse "UNAUTHORIZED" "authentication required" 401
  { base with
    headers :=
      ("WWW-Authenticate", challengeHeaderValue realm service path method) ::
      ("Docker-Distribution-API-Version", "registry/2.0") :: base.headers }

/-- Modelled from Go's `net/http`: `http.Error(w, msg, code)` writes the
plain-text content type, the nosniff header, the status code, and the
message followed by a newline. -/
def httpError (message : String) (code : Nat) : HTTPResponse :=
  { status := code,
    headers := [("Content-Type", "text/plain; charset=utf-8"),
                ("X-Content-Type-Options", "nosniff")],
    body := message ++ "\n" }

/-- Decidable check for the spec's error-body shape: the body opens the
`errors` array with a `code` string field, exactly as `renderErrorBody`
renders it. -/
def isErrorBodyShape (s : String) : Bool :=
  goStartsWith s "\x7b\"errors\":[\x7b\"code\":\""

/-! ## SHA-256 (modelled from Go's `crypto/sha256`, FIPS 180-4)

`generateCacheKey` in `pkg/cache/cache.go` hashes `token + ":" + path`;
the hash itself lives in Go's standard library, so it is reproduced here
bit for bit so every cache definition stays executable.  All 32-bit words
are `Nat`s kept below `2 ^ 32` by explicit `% 4294967296`. -/

/-- UTF-8 bytes of one character (Go strings are UTF-8 byte slices, and
`[]byte(s)` yields exactly these bytes). -/
def charUtf8Bytes (c : Char) : List Nat :=
  let n := c.toNat
  if n < 0x80 then [n]
  else if n < 0x800 then
    [0xC0 + n / 64, 0x80 + n % 64]
  else if n < 0x10000 then
    [0xE0 + n / 4096, 0x80 + (n / 64) % 64, 0x80 + n % 64]
  else
    [0xF0 + n / 262144, 0x80 + (n / 4096) % 64, 0x80 + (n / 64) % 64, 0x80 + n % 64]

/-- UTF-8 bytes of a string. -/
def strUtf8Bytes (s : String) : List Nat :=
  s.data.flatMap charUtf8Bytes

/-- Right rotation of a 32-bit word. -/
def rotr32 (n x : Nat) : Nat :=
  (x >>> n) + ((x % (2 ^ n)) * 2 ^ (32 - n))

/-- Bitwise complement of a 32-bit word. -/
def not32 (x : Nat) : Nat :=
  Nat.xor x 4294967295

/-- SHA-256 `Ch`. -/
def sha2Ch (x y z : Nat) : Nat :=
  Nat.xor (Nat.land x y) (Nat.land (not32 x) z)

/-- SHA-256 `Maj`. -/
def sha2Maj (x y z : Nat) : Nat :=
  Nat.xor (Nat.xor (Nat.land x y) (Nat.land x z)) (Nat.land y z)

/-- SHA-256 Σ₀. -/
def bigSigma0 (x : Nat) : Nat :=
  Nat.xor (Nat.xor (rotr32 2 x) (rotr32 13 x)) (rotr32 22 x)

/-- SHA-256 Σ₁. -/
def bigSigma1 (x : Nat) : Nat :=
  Nat.xor (Nat.xor (rotr32 6 x) (rotr32 11 x)) (rotr32 25 x)

/-- SHA-256 σ₀. -/
def smallSigma0 (x : Nat) : Nat :=
  Nat.xor (Nat.xor (rotr32 7 x) (rotr32 18 x)) (x >>> 3)

/-- SHA-256 σ₁. -/
def smallSigma1 (x : Nat) : Nat :=
  Nat.xor (Nat.xor (rotr32 17 x) (rotr32 19 x)) (x >>> 10)

/-- The 64 SHA-256 round constants of FIPS 180-4, written in decimal. -/
def sha2K : List Nat :=
  [1116352408, 1899447441, 3049323471,
   3921009573, 961987163, 1508970993,
   2453635748, 2870763221, 3624381080,
   310598401, 607225278, 1426881987,
   1925078388, 2162078206, 2614888103,
   3248222580, 3835390401, 4022224774,
   264347078, 604807628, 770255983,
   1249150122, 1555081692, 1996064986,
   2554220882, 2821834349, 2952996808,
   3210313671, 3336571891, 3584528711,
   113926993, 338241895, 666307205,
   773529912, 1294757372, 1396182291,
   1695183700, 1986661051, 2177026350,
   2456956037, 2730485921, 2820302411,
   3259730800, 3345764771, 3516065817,
   3600352804, 4094571909, 275423344,
   430227734, 506948616, 659060556,
   883997877, 958139571, 1322822218,
   1537002063, 1747873779, 1955562222,
   2024104815, 2227730452, 2361852424,
   2428436474, 2756734187, 3204031479,
   3329325298]

/-- The SHA-256 initial hash value of FIPS 180-4, in decimal. -/
def sha2H0 : List Nat :=
  [1779033703, 3144134277, 1013904242,
   2773480762, 1359893119, 2600822924,
   528734635, 1541459225]

/-- Word `i` of a schedule, with `0` out of range. -/
def wAt (w : List Nat) (i : Nat) : Nat :=
  w.getD i 0

/-- Extend a 16-word message block with `n` further schedule words. -/
def extendSchedule : Nat → List Nat → List Nat
  | 0, w => w
  | n + 1, w =>
    let t := w.length
    extendSchedule n
      (w ++ [(smallSigma1 (wAt w (t - 2)) + wAt w (t - 7) +
              smallSigma0 (wAt w (t - 15)) + wAt w (t - 16)) % 4294967296])

/-- One SHA-256 compression round on the `[a,b,c,d,e,f,g,h]` state. -/
def compressStep (st : List Nat) (kw : Nat × Nat) : List Nat :=
  match st with
  | [a, b, c, d, e, f, g, h] =>
    let t1 := (h + bigSigma1 e + sha2Ch e f g + kw.1 + kw.2) % 4294967296
    let t2 := (bigSigma0 a + sha2Maj a b c) % 4294967296
    [(t1 + t2) % 4294967296, a, b, c, (d + t1) % 4294967296, e, f, g]
  | other => other

/-- Process one 16-word block against the running hash. -/
def processBlock (h0 block : List Nat) : List Nat :=
  let w := extendSchedule 48 block
  let st := (sha2K.zip w).foldl compressStep h0
  (h0.zip st).map (fun p => (p.1 + p.2) % 4294967296)

/-- Big-endian 8-byte encoding of `n`. -/
def be64 (n : Nat) : List Nat :=
  [(n >>> 56) % 256, (n >>> 48) % 256, (n >>> 40) % 256, (n >>> 32) % 256,
   (n >>> 24) % 256, (n >>> 16) % 256, (n >>> 8) % 256, n % 256]

/-- SHA-256 padding: `0x80`, zeros to 56 mod 64, then the bit length. -/
def sha2Pad (msg : List Nat) : List Nat :=
  msg ++ 0x80 :: List.replicate ((119 - msg.length % 64) % 64) 0 ++
    be64 (8 * msg.length)

/-- Big-endian 32-bit words from a byte list (length a multiple of 4). -/
def bytesToWords : List Nat → List Nat
  | b0 :: b1 :: b2 :: b3 :: rest =>
    (b0 * 16777216 + b1 * 65536 + b2 * 256 + b3) :: bytesToWords rest
  | _ => []

/-- Chop a word list into `n` blocks of 16 words. -/
def chunk16 : Nat → List Nat → List (List Nat)
  | 0, _ => []
  | n + 1, ws => ws.take 16 :: chunk16 n (ws.drop 16)

/-- The SHA-256 digest of a byte list, as 32 bytes. -/
def sha256Bytes (msg : List Nat) : List Nat :=
  let ws := bytesToWords (sha2Pad msg)
  let hh := (chunk16 (ws.length / 16) ws).foldl processBlock sha2H0
  hh.flatMap (fun w => [(w >>> 24) % 256, (w >>> 16) % 256, (w >>> 8) % 256, w % 256])

/-- Lower-case hex of one byte. -/
def byteHex (b : Nat) : List Char :=
  [hexDigit (b / 16), hexDigit (b % 16)]

/-- `fmt.Sprintf("%x", sha256.Sum(...))`: the lower-case hex digest of the
UTF-8 bytes of `s`. -/
def sha256hex (s : String) : String :=
  String.mk ((sha256Bytes (strUtf8Bytes s)).flatMap byteHex)

/-! ## pkg/cache/cache.go and the go-cache store -/

/-- `Credentials` from `pkg/auth/config.go`. -/
structure Credentials where
  username : String
  password : String
  email : String
  deriving DecidableEq, Repr

/-- Modelled from the spec: the in-memory store of the external
`github.com/patrickmn/go-cache` dependency (not in src).  Per spec section
4.2 it is a mapping from key to (value, expiry); `Set` overwrites the key's
entry, expired entries are lazily invisible to `Get` even before the sweep
removes them, and the sweep only bounds memory.  Time is an abstract `Nat`
clock; an entry written at `now` with a positive TTL expires once the clock
passes `now + ttl`. -/
def GoCacheStore := List (String × Credentials × Nat)

/-- Modelled from the spec: go-cache `Set` — overwrite the key's entry with
the value and its absolute expiry timestamp. -/
def goCacheSet (store : GoCacheStore) (key : String) (v : Credentials)
    (expiry : Nat) : GoCacheStore :=
  (key, v, expiry) :: store.filter (fun e => e.1 ≠ key)

/-- Modelled from the spec: go-cache `Get` at clock `now` — a key's entry is
returned only while the clock has not passed its expiry; afterwards the read
itself reports a miss, whether or not the sweep has run. -/
def goCacheGet (store : GoCacheStore) (key : String) (now : Nat) :
    Option Credentials :=
  match store.find? (fun e => e.1 == key) with
  | some (_, v, expiry) => if now > expiry then none else some v
  | none => none

/-- Modelled from the spec: the periodic sweep (go-cache `DeleteExpired`)
run at clock `now` — drop exactly the entries whose expiry has passed. -/
def goCacheDeleteExpired (store : GoCacheStore) (now : Nat) : GoCacheStore :=
  store.filter (fun e => ¬ now > e.2.2)

/-- `CredentialCache` from `pkg/cache/cache.go`: the go-cache store plus the
default TTL it was created with (`DefaultCacheTTL` = 5 minutes). -/
structure CredentialCache where
  store : GoCacheStore
  defaultTTL : Nat

/-- `generateCacheKey` from `pkg/cache/cache.go`: the `creds:`-prefixed hex
SHA-256 of the token and path joined by a colon. -/
def generateCacheKey (vaultToken vaultPath : String) : String :=
  "creds:" ++ sha256hex (vaultToken ++ ":" ++ vaultPath)

/-- `CredentialCache.Get` from `pkg/cache/cache.go`, at clock `now`. -/
def CredentialCache.Get (c : CredentialCache) (vaultToken vaultPath : String)
    (now : Nat) : Option Credentials :=
  goCacheGet c.store (generateCacheKey vaultToken vaultPath) now

/-- `CredentialCache.Set` from `pkg/cache/cache.go`, at clock `now`: store
under the derived key with the cache's default TTL. -/
def CredentialCache.Set (c : CredentialCache) (vaultToken vaultPath : String)
    (credentials : Credentials) (now : Nat) : CredentialCache :=
  { c with store := goCacheSet c.store (generateCacheKey vaultToken vaultPath)
                      credentials (now + c.defaultTTL) }

/-- `CredentialCache.Delete` from `pkg/cache/cache.go`. -/
def CredentialCache.Delete (c : CredentialCache) (vaultToken vaultPath : String) :
    CredentialCache :=
  { c with store :=
      c.store.filter (fun e => e.1 ≠ generateCacheKey vaultToken vaultPath) }

/-! ## pkg/vault (the second unit of src/pkg/cache/cache.go) -/

/-- A dynamically typed value in a Vault secret's data map (Go
`interface\x7b\x7d`): a string, or something a string type assertion
rejects. -/
inductive VaultValue where
  | str (s : String)
  | nonString
  deriving DecidableEq, Repr

/-- A secret's data map, as an association list with first-match lookup. -/
def SecretData := List (String × VaultValue)

/-- Lookup in a secret's data map. -/
def secretLookup (d : SecretData) (k : String) : Option VaultValue :=
  (d.find? (fun e => e.1 == k)).map (fun e => e.2)

/-- What the KV v2 read in `vault.Client.GetCredentials` can come back
with: a transport/API error, a nil secret or nil data, or a data map. -/
inductive KVResult where
  | err (msg : String)
  | missing
  | data (d : SecretData)

/-- The error classes `vault.Client.GetCredentials` reports:
`ErrSecretNotFound` (wrapped around a failed read or a nil secret) and the
two malformed-secret errors for the required fields. -/
inductive VaultError where
  | secretNotFound
  | usernameNotFound
  | passwordNotFound
  deriving DecidableEq, Repr

/-- The optional-email logic of `vault.Client.GetCredentials`: the `email`
entry when present and string-typed, else the empty string. -/
def secretEmail (d : SecretData) : String :=
  match secretLookup d "email" with
  | some (.str e) => e
  | _ => ""

/-- `vault.Client.GetCredentials`: a failed or empty read is
`secretNotFound`; the `username` and `password` type assertions must yield
strings, else the respective not-found error; `email` is optional and
silently defaults to the empty string. -/
def vaultGetCredentials (res : KVResult) : Except VaultError Credentials :=
  match res with
  | .err _ => .error .secretNotFound
  | .missing => .error .secretNotFound
  | .data d =>
    match secretLookup d "username" with
    | some (.str username) =>
      match secretLookup d "password" with
      | some (.str password) => .ok ⟨username, password, secretEmail d⟩
      | _ => .error .passwordNotFound
    | _ => .error .usernameNotFound

/-! ## Base64 (modelled from Go's `encoding/base64` standard encoding) -/

/-- The standard base64 alphabet. -/
def b64Char (n : Nat) : Char :=
  "ABCDEFGHIJKLMNOPQRSTUVWXYZabcdefghijklmnopqrstuvwxyz0123456789+/".data.getD n '='

/-- Standard base64 with `=` padding over a byte list. -/
def base64EncodeBytes : List Nat → List Char
  | [] => []
  | [b0] => [b64Char (b0 / 4), b64Char ((b0 % 4) * 16), '=', '=']
  | [b0, b1] =>
    [b64Char (b0 / 4), b64Char ((b0 % 4) * 16 + b1 / 16),
     b64Char ((b1 % 16) * 4), '=']
  | b0 :: b1 :: b2 :: rest =>
    b64Char (b0 / 4) :: b64Char ((b0 % 4) * 16 + b1 / 16) ::
    b64Char ((b1 % 16) * 4 + b2 / 64) :: b64Char (b2 % 64) ::
    base64EncodeBytes rest

/-- `base64.StdEncoding.EncodeToString([]byte(s))`. -/
def base64Encode (s : String) : String :=
  String.mk (base64EncodeBytes (strUtf8Bytes s))

/-- The `Authorization` value Go's `Request.SetBasicAuth` installs:
`"Basic " + base64(username + ":" + password)`. -/
def basicAuthValue (username password : String) : String :=
  "Basic " ++ base64Encode (username ++ ":" ++ password)

/-! ## The inbound request and pkg/auth/middleware.go dispatch -/

/-- An inbound HTTP request as the proxy observes it.  `basicAuth` is what
Go's `Request.BasicAuth()` returns: the standard library's base64 decoding
of a `Basic` authorization header into a username and password, `none` when
that decoding fails. -/
structure Request where
  method : String
  urlPath : String
  rawQuery : String
  headers : List (String × List String)
  cookies : List (String × String)
  basicAuth : Option (String × String)

/-- Go `Header.Get`: the first value stored under the key, else empty. -/
def headerGet (hs : List (String × List String)) (name : String) : String :=
  match hs.find? (fun e => e.1 == name) with
  | some (_, v :: _) => v
  | _ => ""

/-- All values stored under a header key. -/
def headerValues (hs : List (String × List String)) (name : String) :
    List String :=
  match hs.find? (fun e => e.1 == name) with
  | some (_, vs) => vs
  | none => []

/-- Go `Request.Cookie(name)`: the cookie's value when present. -/
def cookieGet (r : Request) (name : String) : Option String :=
  (r.cookies.find? (fun e => e.1 == name)).map (fun e => e.2)

/-- `BearerAuth` from `pkg/auth/config.go`. -/
structure BearerAuth where
  token : String
  registryURL : String
  deriving DecidableEq, Repr

/-- `extractRegistryURL` from `pkg/auth/middleware.go`: the `X-Registry-URL`
header when non-empty, else the `registry-url` cookie when present, else the
Docker Hub default. -/
def extractRegistryURL (r : Request) : String :=
  let fromHeader := headerGet r.headers "X-Registry-URL"
  if fromHeader ≠ "" then fromHeader
  else
    match cookieGet r "registry-url" with
    | some v => v
    | none => "registry-1.docker.io"

/-- The bearer context `handleBearerAuth` in `pkg/auth/middleware.go` stores
on the request: `none` when the token after the `Bearer ` scheme is empty
(the middleware then challenges instead); the registry URL falls back to the
Docker Hub default when `extractRegistryURL` came back empty. -/
def bearerAuthContext (r : Request) : Option BearerAuth :=
  let authHeader := headerGet r.headers "Authorization"
  let token := goTrimLead authHeader "Bearer "
  if token = "" then none
  else
    let registryURL := extractRegistryURL r
    let registryURL :=
      if registryURL = "" then "registry-1.docker.io" else registryURL
    some ⟨token, registryURL⟩

/-- What `DockerRegistryAuth` in `pkg/auth/middleware.go` decides for a
request: let the version probe through, answer a challenge or the
invalid-username error itself, or hand the bearer or basic context to the
next handler. -/
inductive AuthDecision where
  | versionProbe
  | challenge
  | invalidUsername
  | bearer (b : BearerAuth)
  | basic (username password : String)
  deriving DecidableEq, Repr

/-- `DockerRegistryAuth` from `pkg/auth/middleware.go`: skip `/v2/`, then
dispatch on the `Authorization` header — absent means challenge, a `Bearer `
scheme goes to the bearer flow (empty token challenges), anything else goes
through `Request.BasicAuth` and `ParseUsername`. -/
def DockerRegistryAuth (r : Request) : AuthDecision :=
  if r.urlPath = "/v2/" then .versionProbe
  else
    let authHeader := headerGet r.headers "Authorization"
    if authHeader = "" then .challenge
    else if goStartsWith authHeader "Bearer " then
      match bearerAuthContext r with
      | none => .challenge
      | some b => .bearer b
    else
      match r.basicAuth with
      | none => .challenge
      | some (username, password) =>
        match ParseUsername username with
        | .error _ => .invalidUsername
        | .ok _ => .basic username password

/-- The response the middleware itself writes, when it does not pass the
request on: the challenge from `challengeAuth`, or the invalid-username
error body. -/
def middlewareResponse (realm service : String) (r : Request) :
    Option HTTPResponse :=
  match DockerRegistryAuth r with
  | .challenge => some (challengeAuth realm service r.urlPath r.method)
  | .invalidUsername =>
    some (writeErrorResponse "UNAUTHORIZED" "Invalid username format" 401)
  | _ => none

/-! ## The registry handlers (pkg/registry, src/unnamed/part_001) -/

/-- The request the forwarder hands to `http.Client.Do`. -/
structure OutboundRequest where
  method : String
  url : String
  headers : List (String × List String)
  deriving DecidableEq, Repr

/-- The upstream registry's answer. -/
structure UpstreamResponse where
  status : Nat
  headers : List (String × String)
  body : String

/-- `proxyBearerRequest` from pkg/registry, up to the transport call: default
the scheme to `https://`, build `<registry>/v2<path>[?query]`, copy every
inbound header — the original bearer `Authorization` included. -/
def proxyBearerRequest (r : Request) (bearerAuth : BearerAuth)
    (targetPath : String) : OutboundRequest :=
  let registryURL := bearerAuth.registryURL
  let registryURL :=
    if ¬ goStartsWith registryURL "http://" ∧ ¬ goStartsWith registryURL "https://"
    then "https://" ++ registryURL else registryURL
  let targetURL := registryURL ++ "/v2" ++ targetPath ++
    (if r.rawQuery ≠ "" then "?" ++ r.rawQuery else "")
  { method := r.method, url := targetURL, headers := r.headers }

/-- `proxyRequest` from pkg/registry, up to the transport call: same URL
construction, but every inbound header except `Authorization` is copied and
`SetBasicAuth` installs the resolved credentials. -/
def proxyRequest (r : Request) (credentials : Credentials)
    (registryConfig : RegistryConfig) (targetPath : String) : OutboundRequest :=
  let registryURL := registryConfig.registryURL
  let registryURL :=
    if ¬ goStartsWith registryURL "http://" ∧ ¬ goStartsWith registryURL "https://"
    then "https://" ++ registryURL else registryURL
  let targetURL := registryURL ++ "/v2" ++ targetPath ++
    (if r.rawQuery ≠ "" then "?" ++ r.rawQuery else "")
  { method := r.method, url := targetURL,
    headers :=
      ("Authorization", [basicAuthValue credentials.username credentials.password]) ::
      r.headers.filter (fun e => e.1 ≠ "Authorization") }

/-- The shared tail of both proxy functions: `http.Client.Do` plus response
streaming.  A transport failure is wrapped as `failed to forward request:`;
on success every response header, the status code and the body are copied
back verbatim. -/
def executeProxy (out : OutboundRequest)
    (transport : OutboundRequest → Except String UpstreamResponse) :
    Except String HTTPResponse :=
  match transport out with
  | .error e => .error ("failed to forward request: " ++ e)
  | .ok resp => .ok { status := resp.status, headers := resp.headers, body := resp.body }

/-- `Error()` text of the two parse sentinels in `pkg/auth/config.go`. -/
def parseErrorText : ParseError → String
  | .invalidUsernameFormat =>
    "invalid username format, expected: <registry_type>;<vault_path>;<registry_url>"
  | .unsupportedRegistryType => "unsupported registry type"

/-- `Error()` text of the vault error classes (`%w` wrapping of the
underlying transport text is elided; no claim depends on it). -/
def vaultErrorText : VaultError → String
  | .secretNotFound => "secret not found in Vault"
  | .usernameNotFound => "username not found in secret"
  | .passwordNotFound => "password not found in secret"

/-- `authenticateAndGetCredentials` from pkg/registry: basic credentials
from the request, `ParseUsername` on the username, the password as the
vault token (`SetToken` mutates the shared client, a spec-section-9 defect
outside these claims), cache lookup, on a miss one vault read, on success
populate the cache.  The result carries the possibly updated cache and the
list of vault paths read. -/
def authenticateAndGetCredentials (r : Request) (c : CredentialCache)
    (now : Nat) (vaultRead : String → KVResult) :
    Except String (Credentials × RegistryConfig) × CredentialCache × List String :=
  match r.basicAuth with
  | none => (.error "basic authentication required", c, [])
  | some (username, password) =>
    match ParseUsername username with
    | .error e => (.error ("invalid username format: " ++ parseErrorText e), c, [])
    | .ok registryConfig =>
      match c.Get password registryConfig.vaultPath now with
      | some credentials => (.ok (credentials, registryConfig), c, [])
      | none =>
        match vaultGetCredentials (vaultRead registryConfig.vaultPath) with
        | .error e =>
          (.error ("failed to retrieve credentials from Vault: " ++ vaultErrorText e),
           c, [registryConfig.vaultPath])
        | .ok credentials =>
          (.ok (credentials, registryConfig),
           c.Set password registryConfig.vaultPath credentials now,
           [registryConfig.vaultPath])

/-- Everything a handler invocation produces: the client-visible response,
the outbound request if one was built, the vault paths read, and the cache
it leaves behind. -/
structure HandlerOutcome where
  response : HTTPResponse
  outbound : Option OutboundRequest
  vaultReads : List String
  cacheAfter : CredentialCache

/-- `GetCatalog` from pkg/registry: a bearer context goes straight to
`proxyBearerRequest` (no cache, no vault); otherwise the basic flow runs
`authenticateAndGetCredentials` (401 via `http.Error` on failure) and then
`proxyRequest`; a forwarding failure becomes a 500 via `http.Error`. -/
def GetCatalog (r : Request) (bearerCtx : Option BearerAuth)
    (c : CredentialCache) (now : Nat) (vaultRead : String → KVResult)
    (transport : OutboundRequest → Except String UpstreamResponse) :
    HandlerOutcome :=
  match bearerCtx with
  | some bearerAuth =>
    let out := proxyBearerRequest r bearerAuth "/_catalog"
    match executeProxy out transport with
    | .error e =>
      ⟨httpError ("failed to proxy request: " ++ e) 500, some out, [], c⟩
    | .ok resp => ⟨resp, some out, [], c⟩
  | none =>
    match authenticateAndGetCredentials r c now vaultRead with
    | (.error e, c2, reads) => ⟨httpError e 401, none, reads, c2⟩
    | (.ok (credentials, registryConfig), c2, reads) =>
      let out := proxyRequest r credentials registryConfig "/_catalog"
      match executeProxy out transport with
      | .error e =>
        ⟨httpError ("failed to proxy request: " ++ e) 500, some out, reads, c2⟩
      | .ok resp => ⟨resp, some out, reads, c2⟩

/-- The catalog route end to end: the middleware decision feeds the handler
context exactly as `DockerRegistryAuth` stores it. -/
def serveCatalog (realm service : String) (r : Request) (c : CredentialCache)
    (now : Nat) (vaultRead : String → KVResult)
    (transport : OutboundRequest → Except String UpstreamResponse) :
    HandlerOutcome :=
  match DockerRegistryAuth r with
  | .versionProbe =>
    ⟨{ status := 200, headers := [("Docker-Distribution-API-Version", "registry/2.0")],
       body := "" }, none, [], c⟩
  | .challenge => ⟨challengeAuth realm service r.urlPath r.method, none, [], c⟩
  | .invalidUsername =>
    ⟨writeErrorResponse "UNAUTHORIZED" "Invalid username format" 401, none, [], c⟩
  | .bearer b => GetCatalog r (some b) c now vaultRead transport
  | .basic _ _ => GetCatalog r none c now vaultRead transport

/-! ## Shared lemmas about the Go string primitives -/

theorem leadsWith_append (p rest : List Char) : leadsWith p (p ++ rest) = true := by
  induction p with
  | nil => rfl
  | cons c cs ih => simp [leadsWith, ih]

theorem goStartsWith_append (pre s : String) : goStartsWith (pre ++ s) pre = true := by
  simp [goStartsWith, String.data_append, leadsWith_append]

theorem goTrimLead_append (pre s : String) : goTrimLead (pre ++ s) pre = s := by
  simp [goTrimLead, goStartsWith_append, String.data_append, List.drop_left]

theorem splitFirst_append (a b : List Char) (sep : Char) (ha : sep ∉ a) :
    splitFirst (a ++ sep :: b) sep = some (a, b) := by
  induction a with
  | nil => simp [splitFirst]
  | cons c cs ih =>
    simp only [List.mem_cons, not_or] at ha
    have hc : (c == sep) = false := by
      simp only [beq_eq_false_iff_ne, ne_eq]
      exact fun h => ha.1 h.symm
    simp [splitFirst, hc, ih ha.2]

theorem goSplitN_three (a b c : String) (ha : ';' ∉ a.data) (hb : ';' ∉ b.data) :
    goSplitN (a ++ ";" ++ b ++ ";" ++ c) ';' 3 = [a, b, c] := by
  have hdata : (a ++ ";" ++ b ++ ";" ++ c).data =
      a.data ++ ';' :: (b.data ++ ';' :: c.data) := by
    simp [String.data_append]
  show (goSplitNChars (a ++ ";" ++ b ++ ";" ++ c).data ';' 3).map String.mk = _
  rw [hdata]
  rw [show (3 : Nat) = 1 + 2 from rfl]
  simp only [goSplitNChars, splitFirst_append _ _ _ ha, splitFirst_append _ _ _ hb]
  rfl

theorem isValidRegistryType_iff (t : String) :
    isValidRegistryType t = true ↔ t ∈ (["docker", "ecr", "gcr"] : List String) := by
  simp [isValidRegistryType, or_assoc]

theorem ParseUsername_three (p0 p1 p2 s : String)
    (h : goSplitN s ';' 3 = [p0, p1, p2]) :
    ParseUsername s =
      if goTrimSpace p0 = "" ∨ goTrimSpace p1 = "" ∨ goTrimSpace p2 = "" then
        .error .invalidUsernameFormat
      else if ¬ isValidRegistryType (goTrimSpace p0) then
        .error .unsupportedRegistryType
      else
        .ok ⟨goTrimSpace p0, goTrimSpace p1, goTrimSpace p2⟩ := by
  unfold ParseUsername
  rw [h]

/-! ## Claims about the locator parser -/

/-- Claim C6: `ParseUsername` fails with the invalid-format error exactly
when the semicolon split bounded to three parts does not yield three parts
that are all non-empty after trimming, and fails with the
unsupported-registry-type error exactly when the parts are well-formed but
the first part, trimmed, is outside docker/ecr/gcr. -/
theorem ParseUsername_error_conditions (s : String) :
    (ParseUsername s = .error .invalidUsernameFormat ↔
      ¬ ∃ p0 p1 p2, goSplitN s ';' 3 = [p0, p1, p2] ∧
        goTrimSpace p0 ≠ "" ∧ goTrimSpace p1 ≠ "" ∧ goTrimSpace p2 ≠ "") ∧
    (ParseUsername s = .error .unsupportedRegistryType ↔
      ∃ p0 p1 p2, goSplitN s ';' 3 = [p0, p1, p2] ∧
        goTrimSpace p0 ≠ "" ∧ goTrimSpace p1 ≠ "" ∧ goTrimSpace p2 ≠ "" ∧
        goTrimSpace p0 ∉ (["docker", "ecr", "gcr"] : List String)) := by
  rcases h : goSplitN s ';' 3 with _ | ⟨p0, _ | ⟨p1, _ | ⟨p2, _ | ⟨p3, rest⟩⟩⟩⟩
  case nil =>
    have he : ParseUsername s = .error .invalidUsernameFormat := by
      unfold ParseUsername; rw [h]
    constructor <;> simp [he, h]
  case cons.nil =>
    have he : ParseUsername s = .error .invalidUsernameFormat := by
      unfold ParseUsername; rw [h]
    constructor <;> simp [he, h]
  case cons.cons.nil =>
    have he : ParseUsername s = .error .invalidUsernameFormat := by
      unfold ParseUsername; rw [h]
    constructor <;> simp [he, h]
  case cons.cons.cons.cons =>
    have he : ParseUsername s = .error .invalidUsernameFormat := by
      unfold ParseUsername; rw [h]
    constructor <;> simp [he, h]
  case cons.cons.cons.nil =>
    rw [ParseUsername_three p0 p1 p2 s h]
    constructor
    · constructor
      · intro heq hex
        obtain ⟨a, b1, c1, habc, ha3, hb3, hc3⟩ := hex
        obtain ⟨rfl, rfl, rfl⟩ : p0 = a ∧ p1 = b1 ∧ p2 = c1 := by simpa using habc
        rw [if_neg (by tauto)] at heq
        by_cases hv : isValidRegistryType (goTrimSpace p0) = true
        · rw [if_neg (by simp [hv])] at heq
          exact absurd heq (by simp)
        · rw [if_pos (by simp only [Bool.not_eq_true] at hv ⊢; simp [hv])] at heq
          exact absurd heq (by simp)
      · intro hnex
        by_cases h0 : goTrimSpace p0 = "" ∨ goTrimSpace p1 = "" ∨ goTrimSpace p2 = ""
        · rw [if_pos h0]
        · push_neg at h0
          exact absurd ⟨p0, p1, p2, rfl, h0.1, h0.2.1, h0.2.2⟩ hnex
    · constructor
      · intro heq
        by_cases h0 : goTrimSpace p0 = "" ∨ goTrimSpace p1 = "" ∨ goTrimSpace p2 = ""
        · rw [if_pos h0] at heq
          exact absurd heq (by simp)
        · rw [if_neg h0] at heq
          push_neg at h0
          by_cases hv : isValidRegistryType (goTrimSpace p0) = true
          · rw [if_neg (by simp [hv])] at heq
            exact absurd heq (by simp)
          · refine ⟨p0, p1, p2, rfl, h0.1, h0.2.1, h0.2.2, ?_⟩
            intro hm
            exact hv ((isValidRegistryType_iff _).mpr hm)
      · rintro ⟨a, b1, c1, habc, ha3, hb3, hc3, hval⟩
        obtain ⟨rfl, rfl, rfl⟩ : p0 = a ∧ p1 = b1 ∧ p2 = c1 := by simpa using habc
        rw [if_neg (by tauto), if_pos]
        have hf : isValidRegistryType (goTrimSpace p0) = false := by
          rcases Bool.eq_false_or_eq_true (isValidRegistryType (goTrimSpace p0)) with ht | hf
          · exact absurd ((isValidRegistryType_iff _).mp ht) hval
          · exact hf
        simp [hf]

/-- Claim C7 (amended): for every `type;path;url` input whose first two
segments are semicolon-free, whose three segments are non-empty after
trimming and whose first segment trims to a known type, `ParseUsername`
succeeds and returns the three segments with surrounding white space
trimmed — not byte-identical to the raw segments — and the third segment may
itself contain literal semicolons, which the bounded split leaves in
place. -/
theorem ParseUsername_roundtrip_trimmed (a b c : String)
    (ha : ';' ∉ a.data) (hb : ';' ∉ b.data)
    (h0 : goTrimSpace a ≠ "") (h1 : goTrimSpace b ≠ "") (h2 : goTrimSpace c ≠ "")
    (hv : isValidRegistryType (goTrimSpace a) = true) :
    ParseUsername (a ++ ";" ++ b ++ ";" ++ c) =
      .ok ⟨goTrimSpace a, goTrimSpace b, goTrimSpace c⟩ := by
  rw [ParseUsername_three a b c _ (goSplitN_three a b c ha hb)]
  rw [if_neg (by tauto), if_neg (by simp [hv])]

/-- Claim C7 witness: a concrete well-formed locator whose third segment
contains a literal semicolon parses to exactly its three segments. -/
theorem ParseUsername_roundtrip_trimmed_witness :
    ParseUsername ("docker" ++ ";" ++ "hub" ++ ";" ++ "reg.io;x") =
      .ok ⟨"docker", "hub", "reg.io;x"⟩ := by
  have h := ParseUsername_roundtrip_trimmed "docker" "hub" "reg.io;x"
    (by decide) (by decide) (by decide) (by decide) (by decide) (by decide)
  rw [show goTrimSpace "docker" = "docker" from rfl,
      show goTrimSpace "hub" = "hub" from rfl,
      show goTrimSpace "reg.io;x" = "reg.io;x" from rfl] at h
  exact h

/-- Claim C7 counterexample: on the well-formed input `docker; p ;u` the
parser succeeds but returns the trimmed field `p`, not the raw second
segment ` p `, so the fields do not equal the input segments exactly. -/
theorem ParseUsername_roundtrip_exact_fails :
    ParseUsername ("docker" ++ ";" ++ " p " ++ ";" ++ "u") =
      .ok ⟨"docker", "p", "u"⟩ ∧ ("p" : String) ≠ " p " := by
  constructor
  · rfl
  · decide

/-! ## Shared lemmas about the credential cache -/

theorem goCacheGet_set_same (store : GoCacheStore) (k : String) (v : Credentials)
    (exp now : Nat) (h : ¬ now > exp) :
    goCacheGet (goCacheSet store k v exp) k now = some v := by
  unfold goCacheGet goCacheSet
  rw [List.find?_cons_of_pos _ (by simp)]
  simp [h]

theorem CredentialCache_get_set_key_eq (store : GoCacheStore) (ttl : Nat)
    (t1 p1 t2 p2 : String) (cr : Credentials) (now now2 : Nat)
    (hk : generateCacheKey t2 p2 = generateCacheKey t1 p1)
    (hexp : ¬ now2 > now + ttl) :
    (CredentialCache.Set ⟨store, ttl⟩ t1 p1 cr now).Get t2 p2 now2 = some cr := by
  unfold CredentialCache.Get CredentialCache.Set
  rw [hk]
  exact goCacheGet_set_same _ _ _ _ _ hexp

/-! ## Claims about the credential cache -/

/-- Claim C1 (amended): starting from an empty cache, a `Get` under one
(token, path) pair returns what was `Set` under another pair exactly when
the two derived cache keys coincide; and the keys coincide whenever the two
`token + ":" + path` concatenations coincide — which distinct pairs can
achieve when a token contains a colon, so key derivation is not injective
on pairs. -/
theorem cache_key_collision_characterization (ttl : Nat) (t1 p1 t2 p2 : String)
    (cr : Credentials) (now : Nat) :
    ((CredentialCache.Set ⟨[], ttl⟩ t1 p1 cr now).Get t2 p2 now = some cr ↔
      generateCacheKey t2 p2 = generateCacheKey t1 p1) ∧
    (t1 ++ ":" ++ p1 = t2 ++ ":" ++ p2 →
      generateCacheKey t2 p2 = generateCacheKey t1 p1) := by
  constructor
  · constructor
    · intro hget
      by_cases hk : generateCacheKey t2 p2 = generateCacheKey t1 p1
      · exact hk
      · exfalso
        unfold CredentialCache.Get CredentialCache.Set goCacheGet goCacheSet at hget
        rw [List.find?_cons_of_neg _
          (by simp only [beq_iff_eq]; exact fun h => hk h.symm)] at hget
        simp at hget
    · intro hk
      exact CredentialCache_get_set_key_eq [] ttl t1 p1 t2 p2 cr now now hk (by omega)
  · intro hcat
    unfold generateCacheKey
    rw [hcat]

/-- Claim C1 witness: the collision law applied at a concrete colliding
pair. -/
theorem cache_key_collision_witness :
    (CredentialCache.Set ⟨[], 5⟩ "tokA:x" "path" ⟨"u", "pw", ""⟩ 0).Get
      "tokA" "x:path" 0 = some ⟨"u", "pw", ""⟩ :=
  (cache_key_collision_characterization 5 "tokA:x" "path" "tokA" "x:path"
      ⟨"u", "pw", ""⟩ 0).1.mpr
    ((cache_key_collision_characterization 5 "tokA:x" "path" "tokA" "x:path"
        ⟨"u", "pw", ""⟩ 0).2 rfl)

/-- Claim C1 counterexample: the distinct pairs `("a:b", "c")` and
`("a", "b:c")` share one derived key, and a `Get` under the second pair
returns the credentials `Set` under the first. -/
theorem cache_isolation_counterexample :
    (("a:b", "c") ≠ (("a", "b:c") : String × String)) ∧
    (CredentialCache.Set ⟨[], 5⟩ "a:b" "c" ⟨"user", "pw", ""⟩ 0).Get
      "a" "b:c" 0 = some ⟨"user", "pw", ""⟩ := by
  refine ⟨by decide, ?_⟩
  refine CredentialCache_get_set_key_eq [] 5 "a:b" "c" "a" "b:c"
    ⟨"user", "pw", ""⟩ 0 0 ?_ (by omega)
  unfold generateCacheKey
  rw [show ("a" ++ ":" ++ "b:c" : String) = "a:b" ++ ":" ++ "c" from rfl]

/-- Claim C5: a `Set` immediately followed by a `Get` under the same pair
returns the stored credentials; once the clock passes the entry's TTL the
`Get` itself reports a miss; and reading after a sweep at any earlier
instant gives exactly the same answer as reading without the sweep — expiry
is enforced by the read, not by the sweep. -/
theorem cache_ttl_read_semantics (c : CredentialCache) (t p : String)
    (cr : Credentials) (now now2 nowS : Nat) :
    ((c.Set t p cr now).Get t p now = some cr) ∧
    (now2 > now + c.defaultTTL → (c.Set t p cr now).Get t p now2 = none) ∧
    (nowS ≤ now2 →
      goCacheGet (goCacheDeleteExpired (c.Set t p cr now).store nowS)
          (generateCacheKey t p) now2 =
        (c.Set t p cr now).Get t p now2) := by
  obtain ⟨store, ttl⟩ := c
  refine ⟨CredentialCache_get_set_key_eq store ttl t p t p cr now now rfl (by omega),
    ?_, ?_⟩
  · intro h2
    unfold CredentialCache.Get CredentialCache.Set goCacheGet goCacheSet
    rw [List.find?_cons_of_pos _ (by simp)]
    simp only at h2 ⊢
    rw [if_pos h2]
  · intro hle
    unfold CredentialCache.Get CredentialCache.Set goCacheGet goCacheSet
      goCacheDeleteExpired
    simp only
    by_cases hd : nowS > now + ttl
    · rw [List.filter_cons_of_neg (by simp [hd])]
      rw [List.find?_cons_of_pos _ (by simp)]
      have hnone :
          (List.filter (fun e => decide (¬ nowS > e.2.2))
              (List.filter (fun e => decide (e.1 ≠ generateCacheKey t p)) store)).find?
            (fun e => e.1 == generateCacheKey t p) = none := by
        rw [List.find?_eq_none]
        intro x hx
        have hx2 := List.mem_filter.mp hx
        have hx3 := List.mem_filter.mp hx2.1
        have hx4 : x.1 ≠ generateCacheKey t p := by simpa using hx3.2
        simp only [beq_iff_eq]
        exact hx4
      rw [hnone]
      have hgt : now2 > now + ttl := by omega
      simp [hgt]
    · rw [List.filter_cons_of_pos (by simp [hd])]
      rw [List.find?_cons_of_pos _ (by simp)]
      rw [List.find?_cons_of_pos _ (by simp)]

/-- Claim C5 witness: the TTL law at a concrete cache — a hit at the write
instant, a miss once the clock passes the TTL, and sweep-independence of
the expired read. -/
theorem cache_ttl_read_semantics_witness :
    ((⟨[], 5⟩ : CredentialCache).Set "t" "p" ⟨"u", "pw", ""⟩ 0).Get "t" "p" 0 =
      some ⟨"u", "pw", ""⟩ ∧
    ((⟨[], 5⟩ : CredentialCache).Set "t" "p" ⟨"u", "pw", ""⟩ 0).Get "t" "p" 6 =
      none ∧
    goCacheGet
        (goCacheDeleteExpired
          ((⟨[], 5⟩ : CredentialCache).Set "t" "p" ⟨"u", "pw", ""⟩ 0).store 3)
        (generateCacheKey "t" "p") 6 =
      ((⟨[], 5⟩ : CredentialCache).Set "t" "p" ⟨"u", "pw", ""⟩ 0).Get "t" "p" 6 :=
  ⟨(cache_ttl_read_semantics ⟨[], 5⟩ "t" "p" ⟨"u", "pw", ""⟩ 0 6 3).1,
   (cache_ttl_read_semantics ⟨[], 5⟩ "t" "p" ⟨"u", "pw", ""⟩ 0 6 3).2.1 (by decide),
   (cache_ttl_read_semantics ⟨[], 5⟩ "t" "p" ⟨"u", "pw", ""⟩ 0 6 3).2.2 (by decide)⟩

/-! ## Claims about scope derivation and the challenge -/

/-- Claim C2 (what the code actually computes): because `extractScope`
takes only the final path segment as the endpoint, the manifests paths of
the claim yield the repository name `myrepo/manifests` and the default
action `pull` for every method, and the tags path yields
`library/nginx/tags`; only the catalog case matches the claim.  The
`manifests/`-prefixed branches of `getActionFromEndpoint` can never fire on
a segment produced by splitting on `/`. -/
theorem extractScope_actual_behaviour :
    extractScope "/v2/myrepo/manifests/latest" "GET" =
      "repository:myrepo/manifests:pull" ∧
    extractScope "/v2/myrepo/manifests/latest" "PUT" =
      "repository:myrepo/manifests:pull" ∧
    extractScope "/v2/myrepo/manifests/latest" "DELETE" =
      "repository:myrepo/manifests:pull" ∧
    extractScope "/v2/library/nginx/tags/list" "GET" =
      "repository:library/nginx/tags:pull" ∧
    extractScope "/v2/_catalog" "GET" = "registry:catalog:*" ∧
    goSplit "myrepo/manifests/latest" '/' = ["myrepo", "manifests", "latest"] ∧
    getActionFromEndpoint "latest" "PUT" = "pull" ∧
    getActionFromEndpoint "list" "GET" = "pull" :=
  ⟨rfl, rfl, rfl, rfl, rfl, rfl, rfl, rfl⟩

/-- Claim C10: for an unauthenticated request whose path under `/v2/` is a
single non-empty segment other than `_catalog`, the derived scope is empty,
so the challenge's `WWW-Authenticate` value carries realm and service and no
scope parameter at all, while the API-version header is still set; the
middleware answers exactly this challenge. -/
theorem challenge_no_scope_single_segment (realm service seg method : String)
    (h1 : '/' ∉ seg.data) (h2 : seg ≠ "_catalog") (h3 : seg ≠ "") :
    extractScope ("/v2/" ++ seg) method = "" ∧
    challengeHeaderValue realm service ("/v2/" ++ seg) method =
      "Bearer realm=\"" ++ realm ++ "\",service=\"" ++ service ++ "\"" ∧
    challengeAuth realm service ("/v2/" ++ seg) method =
      { status := 401,
        headers := [("WWW-Authenticate",
                      "Bearer realm=\"" ++ realm ++ "\",service=\"" ++ service ++ "\""),
                    ("Docker-Distribution-API-Version", "registry/2.0"),
                    ("Content-Type", "application/json")],
        body := renderErrorBody "UNAUTHORIZED" "authentication required" } ∧
    (∀ r : Request, r.urlPath = "/v2/" ++ seg →
      headerGet r.headers "Authorization" = "" →
      middlewareResponse realm service r =
        some (challengeAuth realm service r.urlPath r.method)) := by
  have hscope : extractScope ("/v2/" ++ seg) method = "" := by
    unfold extractScope
    simp [goStartsWith_append, goTrimLead_append, goContainsChar, h1, h2]
  have hchal : challengeHeaderValue realm service ("/v2/" ++ seg) method =
      "Bearer realm=\"" ++ realm ++ "\",service=\"" ++ service ++ "\"" := by
    unfold challengeHeaderValue
    rw [hscope]
    simp
  refine ⟨hscope, hchal, ?_, ?_⟩
  · unfold challengeAuth writeErrorResponse
    rw [hchal]
  · intro r hru hha
    have hne : r.urlPath ≠ "/v2/" := by
      rw [hru]
      intro hcontr
      apply h3
      have hd : "/v2/".data ++ seg.data = "/v2/".data ++ [] := by
        rw [← String.data_append, hcontr]
        simp
      have hnil : seg.data = [] := List.append_cancel_left hd
      exact String.ext (by simp [hnil])
    have hdec : DockerRegistryAuth r = .challenge := by
      unfold DockerRegistryAuth
      rw [if_neg hne]
      simp [hha]
    unfold middlewareResponse
    rw [hdec]

/-- Claim C10 witness: the scope-free challenge at the concrete path
`/v2/foo`. -/
theorem challenge_no_scope_single_segment_witness :
    extractScope ("/v2/" ++ "foo") "GET" = "" ∧
    challengeHeaderValue "https://auth.docker.io/token" "registry.docker.io"
        ("/v2/" ++ "foo") "GET" =
      "Bearer realm=\"" ++ "https://auth.docker.io/token" ++ "\",service=\"" ++
        "registry.docker.io" ++ "\"" :=
  ⟨(challenge_no_scope_single_segment "https://auth.docker.io/token"
      "registry.docker.io" "foo" "GET" (by decide) (by decide) (by decide)).1,
   (challenge_no_scope_single_segment "https://auth.docker.io/token"
      "registry.docker.io" "foo" "GET" (by decide) (by decide) (by decide)).2.1⟩

/-! ## Claims about the credential resolver -/

/-- Claim C3 (amended): on a cache miss the resolver consults the secret
store once; the fetched record must carry string-typed `username` and
`password` entries — a present-but-empty string is accepted, the errors fire
only when an entry is absent or not a string; a missing `email` defaults to
the empty string; on success the credentials are placed in the cache under
the default TTL and returned together with the parsed locator. -/
theorem resolver_fetch_validate_and_cache (d : SecretData) (r : Request)
    (username password : String) (cfg : RegistryConfig) (c : CredentialCache)
    (now : Nat) (vaultRead : String → KVResult) :
    (∀ u pw, secretLookup d "username" = some (.str u) →
      secretLookup d "password" = some (.str pw) →
      vaultGetCredentials (.data d) = .ok ⟨u, pw, secretEmail d⟩) ∧
    (secretLookup d "email" = none → secretEmail d = "") ∧
    ((∀ u, secretLookup d "username" ≠ some (.str u)) →
      vaultGetCredentials (.data d) = .error .usernameNotFound) ∧
    (∀ u, secretLookup d "username" = some (.str u) →
      (∀ pw, secretLookup d "password" ≠ some (.str pw)) →
      vaultGetCredentials (.data d) = .error .passwordNotFound) ∧
    (r.basicAuth = some (username, password) →
      ParseUsername username = .ok cfg →
      c.Get password cfg.vaultPath now = none →
      ((∀ e, vaultGetCredentials (vaultRead cfg.vaultPath) = .error e →
        authenticateAndGetCredentials r c now vaultRead =
          (.error ("failed to retrieve credentials from Vault: " ++ vaultErrorText e),
           c, [cfg.vaultPath])) ∧
       (∀ cr, vaultGetCredentials (vaultRead cfg.vaultPath) = .ok cr →
        authenticateAndGetCredentials r c now vaultRead =
          (.ok (cr, cfg), c.Set password cfg.vaultPath cr now, [cfg.vaultPath])))) := by
  refine ⟨?_, ?_, ?_, ?_, ?_⟩
  · intro u pw hu hpw
    unfold vaultGetCredentials
    simp only [hu, hpw]
  · intro h
    unfold secretEmail
    rw [h]
  · intro hnu
    unfold vaultGetCredentials
    rcases hu : secretLookup d "username" with _ | v
    · simp only [hu]
    · cases v with
      | str s => exact absurd hu (hnu s)
      | nonString => simp only [hu]
  · intro u hu hnpw
    unfold vaultGetCredentials
    rcases hpw : secretLookup d "password" with _ | v
    · simp only [hu, hpw]
    · cases v with
      | str s => exact absurd hpw (hnpw s)
      | nonString => simp only [hu, hpw]
  · intro hba hpu hcg
    unfold authenticateAndGetCredentials
    rw [hba]
    simp only [hpu, hcg]
    constructor
    · intro e he
      simp only [he]
    · intro cr hcr
      simp only [hcr]

/-- Claim C3 witness: a concrete cold-cache run — one fetch, credentials
cached under the token and path, and returned. -/
theorem resolver_fetch_validate_and_cache_witness :
    authenticateAndGetCredentials
        ⟨"GET", "/v2/_catalog", "", [], [], some ("docker;path;reg.io", "tok")⟩
        ⟨[], 5⟩ 0
        (fun _ => .data [("username", .str "u"), ("password", .str "pw")]) =
      (.ok (⟨"u", "pw", ""⟩, ⟨"docker", "path", "reg.io"⟩),
       CredentialCache.Set ⟨[], 5⟩ "tok" "path" ⟨"u", "pw", ""⟩ 0, ["path"]) :=
  ((resolver_fetch_validate_and_cache
      [("username", .str "u"), ("password", .str "pw")]
      ⟨"GET", "/v2/_catalog", "", [], [], some ("docker;path;reg.io", "tok")⟩
      "docker;path;reg.io" "tok" ⟨"docker", "path", "reg.io"⟩ ⟨[], 5⟩ 0
      (fun _ => .data [("username", .str "u"), ("password", .str "pw")])).2.2.2.2
    rfl rfl rfl).2 ⟨"u", "pw", ""⟩ rfl

/-- Claim C3 counterexample: a record whose `username` entry is the empty
string is accepted by `vault.Client.GetCredentials` — the code checks only
the string type assertion, not non-emptiness, so no malformed-secret
failure occurs where the claim requires one. -/
theorem vault_empty_username_accepted :
    vaultGetCredentials
        (.data [("username", .str ""), ("password", .str "pw")]) =
      .ok ⟨"", "pw", ""⟩ := rfl

/-! ## Claims about the bearer pass-through pipeline -/

theorem serveCatalog_bearer (realm service : String) (r : Request)
    (c : CredentialCache) (now : Nat) (vaultRead : String → KVResult)
    (transport : OutboundRequest → Except String UpstreamResponse)
    (b : BearerAuth) (h : DockerRegistryAuth r = .bearer b) :
    serveCatalog realm service r c now vaultRead transport =
      GetCatalog r (some b) c now vaultRead transport := by
  unfold serveCatalog
  rw [h]

theorem GetCatalog_bearer (r : Request) (bearerAuth : BearerAuth)
    (c : CredentialCache) (now : Nat) (vaultRead : String → KVResult)
    (transport : OutboundRequest → Except String UpstreamResponse) :
    (GetCatalog r (some bearerAuth) c now vaultRead transport).vaultReads = [] ∧
    (GetCatalog r (some bearerAuth) c now vaultRead transport).cacheAfter = c ∧
    (GetCatalog r (some bearerAuth) c now vaultRead transport).outbound =
      some (proxyBearerRequest r bearerAuth "/_catalog") := by
  unfold GetCatalog
  cases h : executeProxy (proxyBearerRequest r bearerAuth "/_catalog") transport <;>
    simp [h]

theorem bearerAuthContext_eq (r : Request) (tok : String)
    (hauth : headerGet r.headers "Authorization" = "Bearer " ++ tok)
    (htok : tok ≠ "") :
    bearerAuthContext r = some ⟨tok,
      if extractRegistryURL r = "" then "registry-1.docker.io"
      else extractRegistryURL r⟩ := by
  unfold bearerAuthContext
  rw [hauth]
  simp only [goTrimLead_append]
  simp [htok]

theorem DockerRegistryAuth_bearer_eq (r : Request) (tok : String)
    (hpath : r.urlPath ≠ "/v2/")
    (hauth : headerGet r.headers "Authorization" = "Bearer " ++ tok)
    (htok : tok ≠ "") :
    DockerRegistryAuth r = .bearer ⟨tok,
      if extractRegistryURL r = "" then "registry-1.docker.io"
      else extractRegistryURL r⟩ := by
  unfold DockerRegistryAuth
  rw [if_neg hpath, hauth]
  have hne : ("Bearer " ++ tok : String) ≠ "" := by
    intro hcontr
    have hdd := congrArg String.data hcontr
    simp [String.data_append] at hdd
  rw [if_neg hne, if_pos (goStartsWith_append "Bearer " tok)]
  rw [bearerAuthContext_eq r tok hauth htok]

theorem extractRegistryURL_header (r : Request)
    (hh : headerGet r.headers "X-Registry-URL" ≠ "") :
    extractRegistryURL r = headerGet r.headers "X-Registry-URL" := by
  unfold extractRegistryURL
  simp [hh]

theorem extractRegistryURL_cookie (r : Request) (v : String)
    (hh : headerGet r.headers "X-Registry-URL" = "")
    (hv : cookieGet r "registry-url" = some v) :
    extractRegistryURL r = v := by
  unfold extractRegistryURL
  simp [hh, hv]

theorem extractRegistryURL_default (r : Request)
    (hh : headerGet r.headers "X-Registry-URL" = "")
    (hcn : cookieGet r "registry-url" = none) :
    extractRegistryURL r = "registry-1.docker.io" := by
  unfold extractRegistryURL
  simp [hh, hcn]

/-- Claim C4: on the catalog route, a request carrying a non-empty bearer
token is dispatched to the bearer pipeline; the upstream registry host is
resolved by the fixed precedence `X-Registry-URL` header, then the
`registry-url` cookie, then the hard-coded Docker Hub default; the outbound
request carries every inbound header — the bearer `Authorization` included —
byte for byte; and the bearer path performs no secret-store read and leaves
the cache untouched. -/
theorem bearer_passthrough_pipeline (realm service : String) (r : Request)
    (c : CredentialCache) (now : Nat) (vaultRead : String → KVResult)
    (transport : OutboundRequest → Except String UpstreamResponse) (tok : String)
    (hpath : r.urlPath = "/v2/_catalog")
    (hauth : headerGet r.headers "Authorization" = "Bearer " ++ tok)
    (htok : tok ≠ "") :
    ∃ b : BearerAuth,
      DockerRegistryAuth r = .bearer b ∧
      b.token = tok ∧
      (headerGet r.headers "X-Registry-URL" ≠ "" →
        b.registryURL = headerGet r.headers "X-Registry-URL") ∧
      (headerGet r.headers "X-Registry-URL" = "" →
        ∀ v, cookieGet r "registry-url" = some v → v ≠ "" → b.registryURL = v) ∧
      (headerGet r.headers "X-Registry-URL" = "" →
        cookieGet r "registry-url" = none → b.registryURL = "registry-1.docker.io") ∧
      (proxyBearerRequest r b "/_catalog").headers = r.headers ∧
      headerValues (proxyBearerRequest r b "/_catalog").headers "Authorization" =
        headerValues r.headers "Authorization" ∧
      (serveCatalog realm service r c now vaultRead transport).vaultReads = [] ∧
      (serveCatalog realm service r c now vaultRead transport).cacheAfter = c ∧
      (serveCatalog realm service r c now vaultRead transport).outbound =
        some (proxyBearerRequest r b "/_catalog") := by
  have hpne : r.urlPath ≠ "/v2/" := by rw [hpath]; decide
  have hdec := DockerRegistryAuth_bearer_eq r tok hpne hauth htok
  refine ⟨_, hdec, rfl, ?_, ?_, ?_, rfl, rfl, ?_, ?_, ?_⟩
  · intro hh
    show (if extractRegistryURL r = "" then "registry-1.docker.io"
      else extractRegistryURL r) = headerGet r.headers "X-Registry-URL"
    rw [extractRegistryURL_header r hh, if_neg hh]
  · intro hh v hv hvne
    show (if extractRegistryURL r = "" then "registry-1.docker.io"
      else extractRegistryURL r) = v
    rw [extractRegistryURL_cookie r v hh hv, if_neg hvne]
  · intro hh hcn
    show (if extractRegistryURL r = "" then "registry-1.docker.io"
      else extractRegistryURL r) = "registry-1.docker.io"
    rw [extractRegistryURL_default r hh hcn, if_neg (by decide)]
  · rw [serveCatalog_bearer realm service r c now vaultRead transport _ hdec]
    exact (GetCatalog_bearer r _ c now vaultRead transport).1
  · rw [serveCatalog_bearer realm service r c now vaultRead transport _ hdec]
    exact (GetCatalog_bearer r _ c now vaultRead transport).2.1
  · rw [serveCatalog_bearer realm service r c now vaultRead transport _ hdec]
    exact (GetCatalog_bearer r _ c now vaultRead transport).2.2

/-- Claim C4 witness: a concrete bearer request with an override header
reaches the upstream without any secret-store read and with the cache
unchanged. -/
theorem bearer_passthrough_pipeline_witness :
    (serveCatalog "https://auth.docker.io/token" "registry.docker.io"
        ⟨"GET", "/v2/_catalog", "",
         [("Authorization", ["Bearer abc"]), ("X-Registry-URL", ["myreg.io"])],
         [], none⟩
        ⟨[], 5⟩ 0 (fun _ => .missing) (fun _ => .error "x")).vaultReads = [] ∧
    (serveCatalog "https://auth.docker.io/token" "registry.docker.io"
        ⟨"GET", "/v2/_catalog", "",
         [("Authorization", ["Bearer abc"]), ("X-Registry-URL", ["myreg.io"])],
         [], none⟩
        ⟨[], 5⟩ 0 (fun _ => .missing) (fun _ => .error "x")).cacheAfter =
      ⟨[], 5⟩ := by
  obtain ⟨b, hb, htk, hhdr, hcok, hdef, hhdrs, hvals, hreads, hcache, hout⟩ :=
    bearer_passthrough_pipeline "https://auth.docker.io/token"
      "registry.docker.io"
      ⟨"GET", "/v2/_catalog", "",
       [("Authorization", ["Bearer abc"]), ("X-Registry-URL", ["myreg.io"])],
       [], none⟩
      ⟨[], 5⟩ 0 (fun _ => .missing) (fun _ => .error "x") "abc" rfl rfl
      (by decide)
  exact ⟨hreads, hcache⟩

/-! ## Claims about the forwarded header frame -/

theorem find?_filter_not_auth (l : List (String × List String)) (name : String)
    (hname : name ≠ "Authorization") :
    (l.filter (fun e => e.1 ≠ "Authorization")).find? (fun e => e.1 == name) =
      l.find? (fun e => e.1 == name) := by
  induction l with
  | nil => rfl
  | cons x xs ih =>
    by_cases hx : x.1 = "Authorization"
    · rw [List.filter_cons_of_neg (by simp [hx])]
      rw [ih]
      rw [List.find?_cons_of_neg _
        (by simp only [beq_iff_eq, hx]; exact fun h => hname h.symm)]
    · rw [List.filter_cons_of_pos (by simp [hx])]
      by_cases hxn : x.1 = name
      · rw [List.find?_cons_of_pos _ (by simp [hxn]),
            List.find?_cons_of_pos _ (by simp [hxn])]
      · rw [List.find?_cons_of_neg _ (by simp [hxn]),
            List.find?_cons_of_neg _ (by simp [hxn]), ih]

/-- Claim C8: in injection mode the outbound request carries every inbound
header other than `Authorization` unchanged, and its `Authorization` header
is exactly the fresh `Basic` value over
`base64(resolvedUsername ++ ":" ++ resolvedPassword)`; in pass-through mode
every inbound header, `Authorization` included, is copied unchanged. -/
theorem injection_header_frame (r : Request) (credentials : Credentials)
    (cfg : RegistryConfig) (tp : String) (b : BearerAuth) :
    (∀ name, name ≠ "Authorization" →
      headerValues (proxyRequest r credentials cfg tp).headers name =
        headerValues r.headers name) ∧
    headerValues (proxyRequest r credentials cfg tp).headers "Authorization" =
      ["Basic " ++ base64Encode (credentials.username ++ ":" ++ credentials.password)] ∧
    (proxyBearerRequest r b tp).headers = r.headers := by
  refine ⟨?_, ?_, rfl⟩
  · intro name hname
    show headerValues
      (("Authorization", [basicAuthValue credentials.username credentials.password]) ::
        r.headers.filter (fun e => e.1 ≠ "Authorization")) name =
      headerValues r.headers name
    unfold headerValues
    rw [List.find?_cons_of_neg _
      (by simp only [beq_iff_eq]; exact fun h => hname h.symm)]
    rw [find?_filter_not_auth _ _ hname]
  · show headerValues
      (("Authorization", [basicAuthValue credentials.username credentials.password]) ::
        r.headers.filter (fun e => e.1 ≠ "Authorization")) "Authorization" =
      ["Basic " ++ base64Encode (credentials.username ++ ":" ++ credentials.password)]
    unfold headerValues
    rw [List.find?_cons_of_pos _ (by simp)]
    rfl

/-- Claim C8 witness: a non-authorization header of a concrete request
survives injection untouched. -/
theorem injection_header_frame_witness :
    headerValues (proxyRequest
        ⟨"GET", "/v2/_catalog", "",
         [("Accept", ["application/json"]), ("Authorization", ["Basic xyz"])],
         [], none⟩
        ⟨"realuser", "realpw", ""⟩ ⟨"docker", "path", "reg.io"⟩
        "/_catalog").headers "Accept" =
      headerValues
        [("Accept", ["application/json"]), ("Authorization", ["Basic xyz"])]
        "Accept" :=
  (injection_header_frame
      ⟨"GET", "/v2/_catalog", "",
       [("Accept", ["application/json"]), ("Authorization", ["Basic xyz"])],
       [], none⟩
      ⟨"realuser", "realpw", ""⟩ ⟨"docker", "path", "reg.io"⟩ "/_catalog"
      ⟨"t", "u"⟩).1 "Accept" (by decide)

/-! ## Claims about the proxy's own error responses -/

/-- Claim C9 (amended): the error responses written by the authentication
middleware (`writeErrorResponse`, also used by the challenge) carry the
standard JSON error body with one code/message object; the handler-level 401
and 500 responses are produced by `http.Error` and carry a plain-text
`message + newline` body with the plain-text content type, not the JSON
shape. -/
theorem proxy_error_body_shapes (realm service path method code message
    emsg : String) (status : Nat) :
    (writeErrorResponse code message status).body = renderErrorBody code message ∧
    isErrorBodyShape (renderErrorBody code message) = true ∧
    (challengeAuth realm service path method).body =
      renderErrorBody "UNAUTHORIZED" "authentication required" ∧
    (writeErrorResponse code message status).headers =
      [("Content-Type", "application/json")] ∧
    (httpError emsg status).body = emsg ++ "\n" ∧
    (httpError emsg status).headers =
      [("Content-Type", "text/plain; charset=utf-8"),
       ("X-Content-Type-Options", "nosniff")] := by
  refine ⟨rfl, ?_, rfl, rfl, rfl, rfl⟩
  unfold isErrorBodyShape renderErrorBody goStartsWith
  simp [String.data_append, List.append_assoc, leadsWith_append, leadsWith]

/-- Claim C9 counterexample: the 500 the catalog handler writes on a
forwarding failure is a plain-text `http.Error` body, not the JSON error
shape the claim requires. -/
theorem proxy_plain_text_500 :
    (serveCatalog "https://auth.docker.io/token" "registry.docker.io"
        ⟨"GET", "/v2/_catalog", "", [("Authorization", ["Bearer tok123"])],
         [], none⟩
        ⟨[], 5⟩ 0 (fun _ => .missing) (fun _ => .error "boom")).response =
      httpError "failed to proxy request: failed to forward request: boom" 500 ∧
    isErrorBodyShape
      (httpError "failed to proxy request: failed to forward request: boom"
        500).body = false := by
  constructor
  · rfl
  · rfl
